import Mathlib

/-!
Shallow embedding of `gepa_prompt_optimize.py` (GEPA prompt optimizer for CSV
classification) and proofs about its specified behaviour.

Strings are modelled as `List Char`; the Python string methods used by the
program (`strip`, `strip(chars)`, `splitlines`, `lower`, `split(",")`,
`replace`, `"\n".join`) are embedded as executable functions on `List Char`,
restricted to the ASCII character repertoire the program manipulates.
-/

namespace Gepa

/-- Program strings are lists of characters. -/
abbrev Str := List Char

/-- The ASCII whitespace characters stripped by Python `str.strip()`:
space, tab, newline, carriage return, vertical tab, form feed. -/
def pyWhitespace : List Char := [' ', '\t', '\n', '\r', '\x0b', '\x0c']

/-- Strip all leading and trailing characters drawn from `set`
(Python `str.strip(chars)`; with `set = pyWhitespace`, Python `str.strip()`). -/
def stripChars (set : List Char) (l : Str) : Str :=
  ((l.dropWhile (· ∈ set)).reverse.dropWhile (· ∈ set)).reverse

/-- Python `str.strip()` restricted to ASCII whitespace. -/
def pyStrip (l : Str) : Str := stripChars pyWhitespace l

/-- The ASCII line-boundary characters recognised by Python `str.splitlines()`:
newline, carriage return, vertical tab, form feed, and the file, group and
record separators (`\r\n` is treated as a single boundary). -/
def lineBreakChars : List Char := ['\n', '\r', '\x0b', '\x0c', '\x1c', '\x1d', '\x1e']

/-- Python `str.splitlines()` restricted to ASCII line boundaries.
The empty string yields `[]`; a trailing line break adds no empty line;
`\r\n` counts as one boundary. -/
def splitlines : Str → List Str
  | [] => []
  | '\r' :: '\n' :: r => [] :: splitlines r
  | c :: cs =>
    if c ∈ lineBreakChars then [] :: splitlines cs
    else
      match splitlines cs with
      | [] => [[c]]
      | h :: t => (c :: h) :: t

/-- Python `str.lower()` restricted to ASCII case mapping. -/
def pyLower (l : Str) : Str := l.map Char.toLower

/-- Python `str.split(",")`: split at every comma, keeping empty fields. -/
def splitComma : Str → List Str
  | [] => [[]]
  | c :: cs =>
    if c = ',' then [] :: splitComma cs
    else
      match splitComma cs with
      | [] => [[c]]
      | h :: t => (c :: h) :: t

/-- Python `"\n".join(parts)`. -/
def joinNL (parts : List Str) : Str := List.intercalate ['\n'] parts

/-- Python `row.get(k, default)` on a dict modelled as an association list
(CSV `DictReader` rows have unique keys). -/
def dictGetD (row : List (Str × Str)) (k : Str) (d : Str) : Str :=
  match row.find? (fun p => p.1 = k) with
  | some p => p.2
  | none => d

/-- Python `text.replace(old, new)`: replace the leftmost, non-overlapping
occurrences of `old` by `new`, scanning left to right.  `old` is non-empty at
every call site of the program; for `old = []` this model is the identity. -/
def replaceAll (old new : Str) : Str → Str
  | [] => []
  | c :: cs =>
    if h : old ≠ [] ∧ old.isPrefixOf (c :: cs) then
      new ++ replaceAll old new ((c :: cs).drop old.length)
    else
      c :: replaceAll old new cs
termination_by l => l.length
decreasing_by
  · have : 0 < old.length := List.length_pos.mpr h.1
    simp [List.length_drop]; omega
  · simp

deriving instance DecidableEq for Except

/-- Result record returned by the evaluator (mirrors
`gepa.adapters.default_adapter.default_adapter.EvaluationResult`; the
`objective_scores=None` field is omitted as it is constant).  The float score
is modelled as a rational, exact for the values 0.0 and 1.0 the program uses. -/
structure EvaluationResult where
  score : ℚ
  feedback : Str
deriving DecidableEq, Repr

/-- A dataset record built by `to_dataset`: the dict
`{"input": ..., "additional_context": {}, "answer": ...}` (the constant empty
`additional_context` is omitted). -/
structure Example where
  input : Str
  answer : Str
deriving DecidableEq, Repr

/-- A CSV row from `csv.DictReader`, a dict from header name to cell value. -/
abbrev Row := List (Str × Str)

/-- `pick_feature_columns(rows, label_column, feature_columns)`: validate the
label column against the first row's headers and resolve the requested
comma-separated feature-column string (all columns except the label when the
request is blank).  Python `raise ValueError(msg)` is modelled as
`Except.error msg`; the header list rendered into the message keeps Python's
`repr` form `['x', 'y']`. -/
def reprStrList (xs : List Str) : Str :=
  '[' :: List.intercalate (", ".toList) (xs.map (fun x => '\'' :: x ++ ['\''])) ++ [']']

/-- The message of the `ValueError` raised when the label column is absent:
`f"label column '{label_column}' not in CSV headers: {headers}"`. -/
def labelErrMsg (label_column : Str) (headers : List Str) : Str :=
  "label column '".toList ++ label_column ++ "' not in CSV headers: ".toList
    ++ reprStrList headers

def pick_feature_columns (rows : List Row) (label_column : Str)
    (feature_columns : Str) : Except Str (List Str) :=
  match rows with
  | [] => Except.error ("CSV is empty".toList)
  | row0 :: _ =>
    let headers := row0.map Prod.fst
    if label_column ∉ headers then
      Except.error (labelErrMsg label_column headers)
    else if pyStrip feature_columns ≠ [] then
      let cols := ((splitComma feature_columns).map pyStrip).filter (· ≠ [])
      let missing := cols.filter (· ∉ headers)
      if missing ≠ [] then
        Except.error ("missing feature columns: ".toList ++ reprStrList missing)
      else
        Except.ok cols
    else
      Except.ok (headers.filter (· ≠ label_column))

/-- `to_dataset(rows, label_column, feature_cols)`: keep the rows whose label
cell is non-empty after stripping, building for each the `input` text
`"\n".join(f"{k}: {row.get(k, '').strip()}" for k in feature_cols)` and the
stripped label as `answer`; error when nothing remains.  The Python loop with
`continue` is expressed as `filterMap`. -/
def to_dataset (rows : List Row) (label_column : Str) (feature_cols : List Str) :
    Except Str (List Example) :=
  let dataset := rows.filterMap (fun row =>
    let answer := pyStrip (dictGetD row label_column [])
    if answer = [] then none
    else some
      { input := joinNL (feature_cols.map (fun k =>
          k ++ ": ".toList ++ pyStrip (dictGetD row k [])))
        answer := answer })
  if dataset = [] then Except.error ("No usable rows with non-empty labels".toList)
  else Except.ok dataset

/-- `exact_label_evaluator(data, response)`.  The Python body indexes
`response.strip().splitlines()[0]`, which raises `IndexError` when the
stripped response has no lines; that exception is modelled as `none`. -/
def exact_label_evaluator (data : Example) (response : Str) :
    Option EvaluationResult :=
  let expected := pyLower (pyStrip data.answer)
  match splitlines (pyStrip response) with
  | [] => none
  | first :: _ =>
    let predicted := pyLower (stripChars ['\''] (stripChars ['"'] (pyStrip first)))
    let ok := predicted = expected
    let feedback :=
      if ok then
        "Correct. Expected='".toList ++ data.answer ++ "', Predicted='".toList
          ++ pyStrip response ++ "'".toList
      else
        "Incorrect. Expected='".toList ++ data.answer ++ "', Predicted='".toList
          ++ pyStrip response ++ "'. Return only the label.".toList
    some { score := if ok then 1 else 0, feedback := feedback }

/-- The `${businessType}` placeholder of the service file. -/
def dollarBusiness : Str := "${businessType}".toList

/-- The `${aggressivenessLevel}` placeholder of the service file. -/
def dollarAggressiveness : Str := "${aggressivenessLevel}".toList

/-- The `{business_type}` placeholder used by the optimizer. -/
def braceBusiness : Str := "{business_type}".toList

/-- The `{aggressiveness_level}` placeholder used by the optimizer. -/
def braceAggressiveness : Str := "{aggressiveness_level}".toList

/-- The placeholder rewriting performed at the end of
`extract_prompt_from_service`:
`prompt.replace("${businessType}", "{business_type}")` followed by
`prompt.replace("${aggressivenessLevel}", "{aggressiveness_level}")`. -/
def substPlaceholders (prompt : Str) : Str :=
  replaceAll dollarAggressiveness braceAggressiveness
    (replaceAll dollarBusiness braceBusiness prompt)

/-- A regular-expression token of the pattern used by
`extract_prompt_from_service`: a literal run, `c*`, `c+`, a character class,
or `.` (with `re.DOTALL`, matching any character). -/
inductive Tok where
  | lit : Str → Tok
  | star : Char → Tok
  | plus : Char → Tok
  | cls : List Char → Tok
  | anyc : Tok
deriving DecidableEq, Repr

/-- Whether the token sequence matches some prefix of `cs`.  For a Boolean
match the backtracking order is irrelevant: `c*` and `c+` simply try every
length of the run of `c` at the head of the input. -/
def toksMatch : List Tok → Str → Bool
  | [], _ => true
  | Tok.lit w :: ts, cs => w.isPrefixOf cs && toksMatch ts (cs.drop w.length)
  | Tok.star c :: ts, cs =>
    let run := (cs.takeWhile (· = c)).length
    (List.range (run + 1)).any (fun k => toksMatch ts (cs.drop k))
  | Tok.plus c :: ts, cs =>
    let run := (cs.takeWhile (· = c)).length
    (List.range run).any (fun k => toksMatch ts (cs.drop (k + 1)))
  | Tok.cls set :: ts, cs =>
    match cs with
    | [] => false
    | d :: cs' => d ∈ set && toksMatch ts cs'
  | Tok.anyc :: ts, cs =>
    match cs with
    | [] => false
    | _ :: cs' => toksMatch ts cs'

/-- `re.search`: does the token sequence match starting at some position? -/
def reSearch (ts : List Tok) (cs : Str) : Bool :=
  (List.range (cs.length + 1)).any (fun i => toksMatch ts (cs.drop i))

/-- The pattern of the raw-string regex literal in the source,
`r"const\\s+prompt\\s*=\\s*\\[(.*?)\\]\\.join\\(\"\\\\n\"\\);"`, decoded
token by token.  Because the raw string keeps every doubled backslash, each
`\\` is the regex escape for one literal backslash character; in particular
`\\s+` is a literal backslash followed by one or more letters `s`, `\\[` is a
literal backslash followed by the character class `[(.*?)\\]`, and `\\(`
after `join` is a literal backslash followed by the opening of group 1, so
the capture group spans exactly the fixed characters `"\\n"\`. -/
def promptToksPre : List Tok :=
  [Tok.lit ("const".toList), Tok.lit ['\\'], Tok.plus 's',
   Tok.lit ("prompt".toList), Tok.lit ['\\'], Tok.star 's',
   Tok.lit ['='], Tok.lit ['\\'], Tok.star 's',
   Tok.lit ['\\'], Tok.cls ['(', '.', '*', '?', ')', '\\'],
   Tok.lit ['\\'], Tok.anyc,
   Tok.lit ("join".toList), Tok.lit ['\\']]

/-- The fixed characters matched (and captured) by group 1 of the pattern:
`"` `\` `\` `n` `"` `\`. -/
def promptGroupChars : Str := ['"', '\\', '\\', 'n', '"', '\\']

/-- The full token sequence of the buggy pattern. -/
def promptToks : List Tok :=
  promptToksPre ++ [Tok.lit promptGroupChars, Tok.lit [';']]

/-- Scanner for `re.findall(r"`([^`]+)`", block)`: outside a backtick block
(`none`) the scan looks for an opening backtick; inside (`some acc`) it
collects the backtick-free run `acc` and emits it at the closing backtick.
An empty run means the opening backtick had no match and the scan resumes at
the closing one, as `re.findall` does (backtick is `Char.ofNat 96`). -/
def btGo : Option Str → Str → List Str
  | _, [] => []
  | none, c :: cs =>
    if c = Char.ofNat 96 then btGo (some []) cs else btGo none cs
  | some acc, c :: cs =>
    if c = Char.ofNat 96 then
      if acc = [] then btGo (some []) cs else acc :: btGo none cs
    else btGo (some (acc ++ [c])) cs

/-- `re.findall(r"`([^`]+)`", block)`: the group captures of the leftmost
non-overlapping matches, i.e. the non-empty backtick-free runs that are
enclosed in backticks, scanned left to right. -/
def backtickParts (l : Str) : List Str := btGo none l

/-- `extract_prompt_from_service`, applied to the text of the service file
(the `path.read_text` I/O is factored out).  When the search succeeds,
`match.group(1)` is the constant `promptGroupChars` because group 1 of the
pattern is a run of fixed literal tokens; the Python error message appends
the file path, elided here. -/
def extract_prompt_from_service (text : Str) : Except Str Str :=
  if reSearch promptToks text then
    let block := promptGroupChars
    let parts := backtickParts block
    if parts = [] then
      Except.error ("No template literal parts found in prompt block".toList)
    else
      Except.ok (substPlaceholders (joinNL parts))
  else
    Except.error ("Could not find prompt block".toList)

/-- The fixed suffix appended by `build_seed_prompt`. -/
def seedSuffix : Str := "\n\nReturn only the label string. No explanation.".toList

/-- The text of the `{"system_prompt": ...}` dict built by
`build_seed_prompt` from an already-loaded template text (the
`seed_prompt_file` / `extract_prompt_from_service` I/O is factored out):
`text.replace("{business_type}", business_type)` then
`text.replace("{aggressiveness_level}", aggressiveness_level)` then the
appended suffix. -/
def build_seed_text (template business_type aggressiveness_level : Str) : Str :=
  replaceAll braceAggressiveness aggressiveness_level
    (replaceAll braceBusiness business_type template) ++ seedSuffix

/-- The row filter applied by `to_dataset`: keep the rows whose label cell is
non-empty after stripping. -/
def keepRow (label_column : Str) (row : Row) : Bool :=
  pyStrip (dictGetD row label_column []) ≠ []

/-- A well-formed service-file text of the shape the regex was written for:
exactly one assignment of consecutive backtick-delimited text blocks to
`prompt`, terminated by a join-with-newline call. -/
def serviceTextC1 : Str :=
  ("const prompt = [\n  `You are an advisor for a ${businessType}.`,\n  `Aggressiveness: ${aggressivenessLevel}.`,\n].join(\"\\n\");").toList

/-- A template that contains both optimizer placeholders and, in addition, a
literal service-file placeholder `${businessType}`. -/
def badTemplateC7 : Str :=
  "${businessType} {business_type} {aggressiveness_level}".toList

/-! General lemmas about `replaceAll`, used to reason about the placeholder
substitutions of `extract_prompt_from_service` and `build_seed_prompt`. -/

theorem nilPre (l : Str) : [] <+: l := List.nil_prefix

theorem nilInf (l : Str) : [] <:+: l := List.nil_infix

theorem prefixComparable {α : Type} {l₁ l₂ l₃ : List α} (h1 : l₁ <+: l₃) (h2 : l₂ <+: l₃) :
    l₁ <+: l₂ ∨ l₂ <+: l₁ := List.prefix_or_prefix_of_prefix h1 h2

theorem isPrefixOfIff {l₁ l₂ : Str} : l₁.isPrefixOf l₂ = true ↔ l₁ <+: l₂ :=
  List.isPrefixOf_iff_prefix

/-- An infix of a concatenation lies in the left part, in the right part, or
crosses the boundary, splitting into a non-empty suffix of the left part and
a non-empty prefix of the right part. -/
theorem infix_append_split {α : Type} {p x y : List α} (h : p <:+: x ++ y) :
    p <:+: x ∨ p <:+: y ∨
      ∃ s u, p = s ++ u ∧ s ≠ [] ∧ u ≠ [] ∧ s <:+ x ∧ u <+: y := by
  induction x with
  | nil => exact Or.inr (Or.inl (by simpa using h))
  | cons a x' ih =>
    rw [List.cons_append] at h
    rcases List.infix_cons_iff.mp h with hpre | hinf
    · rcases p with _ | ⟨b, p'⟩
      · exact Or.inl List.nil_infix
      · obtain ⟨rfl, hp'⟩ := List.cons_prefix_cons.mp hpre
        rcases prefixComparable hp' (List.prefix_append x' y) with h1 | h2
        · exact Or.inl (List.cons_prefix_cons.mpr ⟨rfl, h1⟩).isInfix
        · obtain ⟨u, rfl⟩ := h2
          have hu : u <+: y := by
            obtain ⟨r, hr⟩ := hp'
            rw [List.append_assoc] at hr
            exact ⟨r, List.append_cancel_left hr⟩
          by_cases hu0 : u = []
          · subst hu0
            exact Or.inl (by simp)
          · exact Or.inr (Or.inr ⟨b :: x', u, by simp, by simp, hu0,
              List.suffix_refl _, hu⟩)
    · rcases ih hinf with h1 | h2 | ⟨s, u, he, hs, hu, hsx, huy⟩
      · exact Or.inl (h1.trans (List.suffix_cons a x').isInfix)
      · exact Or.inr (Or.inl h2)
      · exact Or.inr (Or.inr ⟨s, u, he, hs, hu, hsx.trans (List.suffix_cons a x'), huy⟩)

theorem replaceAll_nil (old new : Str) : replaceAll old new [] = [] := by
  rw [replaceAll]

theorem replaceAll_cons_pos {old new : Str} {c : Char} {cs : Str}
    (h1 : old ≠ []) (h2 : old <+: c :: cs) :
    replaceAll old new (c :: cs) =
      new ++ replaceAll old new ((c :: cs).drop old.length) := by
  rw [replaceAll, dif_pos ⟨h1, isPrefixOfIff.mpr h2⟩]

theorem replaceAll_cons_neg {old new : Str} {c : Char} {cs : Str}
    (h : ¬ (old ≠ [] ∧ old <+: c :: cs)) :
    replaceAll old new (c :: cs) = c :: replaceAll old new cs := by
  rw [replaceAll, dif_neg (by simpa [isPrefixOfIff] using h)]

/-- If the pattern occurs nowhere in the text, `replaceAll` is the identity. -/
theorem replaceAll_eq_self {old new : Str} :
    ∀ l, ¬ old <:+: l → replaceAll old new l = l := by
  intro l
  induction l using replaceAll.induct old new with
  | case1 => intro _; rw [replaceAll_nil]
  | case2 c cs hg _ =>
    intro hl
    exact absurd (isPrefixOfIff.mp hg.2).isInfix hl
  | case3 c cs hg ih =>
    intro hl
    rw [replaceAll_cons_neg (by simpa [isPrefixOfIff] using hg)]
    rw [ih (fun hc => hl (hc.trans (List.suffix_cons c cs).isInfix))]

/-- A non-empty suffix `v` of the guard word `t` can only be a prefix of a
`replaceAll` output if it was already a prefix of the input, provided no
non-empty suffix of `t` is comparable (as a prefix) with the replacement. -/
theorem prefix_of_replaceAll {old new : Str} (t : Str)
    (hA : ∀ v ∈ t.tails, v ≠ [] → ¬ v <+: new ∧ ¬ new <+: v) :
    ∀ l, ∀ v ∈ t.tails, v ≠ [] → v <+: replaceAll old new l → v <+: l := by
  intro l
  induction l using replaceAll.induct old new with
  | case1 =>
    intro v _ hv hp
    rw [replaceAll_nil] at hp
    exact absurd (List.prefix_nil.mp hp) hv
  | case2 c cs hg _ =>
    intro v hvt hv hp
    rw [replaceAll_cons_pos hg.1 (isPrefixOfIff.mp hg.2)] at hp
    rcases prefixComparable hp (List.prefix_append new _) with hc | hc
    · exact absurd hc (hA v hvt hv).1
    · exact absurd hc (hA v hvt hv).2
  | case3 c cs hg ih =>
    intro v hvt hv hp
    rw [replaceAll_cons_neg (by simpa [isPrefixOfIff] using hg)] at hp
    rcases v with _ | ⟨b, v'⟩
    · exact absurd rfl hv
    · obtain ⟨rfl, hp'⟩ := List.cons_prefix_cons.mp hp
      by_cases hv' : v' = []
      · subst hv'
        exact List.cons_prefix_cons.mpr ⟨rfl, nilPre cs⟩
      · have hvt' : v' ∈ t.tails := by
          rw [List.mem_tails] at hvt ⊢
          exact (List.suffix_cons b v').trans hvt
        exact List.cons_prefix_cons.mpr ⟨rfl, ih v' hvt' hv' hp'⟩

/-- After `replaceAll old new`, the pattern `old` occurs nowhere in the
output, provided `old` does not occur in `new`, no non-empty suffix of `new`
is a prefix of `old`, and no non-empty suffix of `old` is comparable (as a
prefix) with `new`. -/
theorem not_in_replaceAll_self {old new : Str} (h0 : old ≠ [])
    (h2 : ¬ old <:+: new)
    (h3 : ∀ s ∈ new.tails, s ≠ [] → ¬ s <+: old)
    (hA : ∀ v ∈ old.tails, v ≠ [] → ¬ v <+: new ∧ ¬ new <+: v) :
    ∀ l, ¬ old <:+: replaceAll old new l := by
  intro l
  induction l using replaceAll.induct old new with
  | case1 =>
    rw [replaceAll_nil]
    intro hc
    exact h0 (List.eq_nil_of_infix_nil hc)
  | case2 c cs hg ih =>
    rw [replaceAll_cons_pos hg.1 (isPrefixOfIff.mp hg.2)]
    intro hc
    rcases infix_append_split hc with hx | hy | ⟨s, u, he, hs, _, hsx, _⟩
    · exact h2 hx
    · exact ih hy
    · exact h3 s ((List.mem_tails _ _).mpr hsx) hs ⟨u, he.symm⟩
  | case3 c cs hg ih =>
    have hg' : ¬ (old ≠ [] ∧ old <+: c :: cs) := by simpa [isPrefixOfIff] using hg
    rw [replaceAll_cons_neg hg']
    intro hc
    rcases List.infix_cons_iff.mp hc with hpre | hinf
    · rcases old with _ | ⟨b, old'⟩
      · exact h0 rfl
      · obtain ⟨rfl, hp'⟩ := List.cons_prefix_cons.mp hpre
        by_cases ho' : old' = []
        · subst ho'
          exact hg' ⟨h0, List.cons_prefix_cons.mpr ⟨rfl, nilPre cs⟩⟩
        · have : old' <+: cs :=
            prefix_of_replaceAll (b :: old') hA cs old'
              ((List.mem_tails _ _).mpr (List.suffix_cons b old')) ho' hp'
          exact hg' ⟨h0, List.cons_prefix_cons.mpr ⟨rfl, this⟩⟩
    · exact ih hinf

/-- `replaceAll old new` introduces no occurrence of a word `t` that did not
occur in the input, provided `t` does not occur in `new`, no non-empty suffix
of `new` is a prefix of `t`, and no non-empty suffix of `t` is comparable (as
a prefix) with `new`. -/
theorem not_in_replaceAll_other {old new : Str} (t : Str)
    (h2 : ¬ t <:+: new)
    (h3 : ∀ s ∈ new.tails, s ≠ [] → ¬ s <+: t)
    (hA : ∀ v ∈ t.tails, v ≠ [] → ¬ v <+: new ∧ ¬ new <+: v) :
    ∀ l, ¬ t <:+: l → ¬ t <:+: replaceAll old new l := by
  intro l
  induction l using replaceAll.induct old new with
  | case1 =>
    intro hl
    rw [replaceAll_nil]
    exact hl
  | case2 c cs hg ih =>
    intro hl
    rw [replaceAll_cons_pos hg.1 (isPrefixOfIff.mp hg.2)]
    intro hc
    rcases infix_append_split hc with hx | hy | ⟨s, u, he, hs, _, hsx, _⟩
    · exact h2 hx
    · have hdrop : ¬ t <:+: (c :: cs).drop old.length :=
        fun hd => hl (hd.trans (List.drop_suffix _ _).isInfix)
      exact ih hdrop hy
    · exact h3 s ((List.mem_tails _ _).mpr hsx) hs ⟨u, he.symm⟩
  | case3 c cs hg ih =>
    intro hl
    rw [replaceAll_cons_neg (by simpa [isPrefixOfIff] using hg)]
    intro hc
    rcases List.infix_cons_iff.mp hc with hpre | hinf
    · rcases t with _ | ⟨b, t'⟩
      · exact hl (nilInf _)
      · obtain ⟨rfl, hp'⟩ := List.cons_prefix_cons.mp hpre
        by_cases ht' : t' = []
        · subst ht'
          exact hl (List.cons_prefix_cons.mpr ⟨rfl, nilPre cs⟩).isInfix
        · have : t' <+: cs :=
            prefix_of_replaceAll (b :: t') hA cs t'
              ((List.mem_tails _ _).mpr (List.suffix_cons b t')) ht' hp'
          exact hl (List.cons_prefix_cons.mpr ⟨rfl, this⟩).isInfix
    · exact ih (fun hc' => hl (hc'.trans (List.suffix_cons c cs).isInfix)) hinf

/-- When the pattern occurs in the text, the replacement occurs in the
`replaceAll` output. -/
theorem new_in_replaceAll {old new : Str} (h0 : old ≠ []) :
    ∀ l, old <:+: l → new <:+: replaceAll old new l := by
  intro l
  induction l using replaceAll.induct old new with
  | case1 =>
    intro hc
    exact absurd (List.eq_nil_of_infix_nil hc) h0
  | case2 c cs hg _ =>
    intro _
    rw [replaceAll_cons_pos hg.1 (isPrefixOfIff.mp hg.2)]
    exact (List.prefix_append new _).isInfix
  | case3 c cs hg ih =>
    have hg' : ¬ (old ≠ [] ∧ old <+: c :: cs) := by simpa [isPrefixOfIff] using hg
    intro hc
    rw [replaceAll_cons_neg hg']
    rcases List.infix_cons_iff.mp hc with hpre | hinf
    · exact absurd ⟨h0, hpre⟩ hg'
    · exact (ih hinf).trans (List.suffix_cons c _).isInfix

/-- A suffix `v` of a word `p` that cannot overlap the pattern stays a prefix
through `replaceAll`. -/
theorem prefix_survives {old new : Str} (p : Str)
    (h3 : ¬ old <:+: p)
    (h4 : ∀ v ∈ p.tails, v ≠ [] → ¬ v <+: old) :
    ∀ l, ∀ v ∈ p.tails, v <+: l → v <+: replaceAll old new l := by
  intro l
  induction l using replaceAll.induct old new with
  | case1 =>
    intro v _ hp
    rw [replaceAll_nil]
    exact hp
  | case2 c cs hg _ =>
    intro v hvt hp
    rcases prefixComparable hp (isPrefixOfIff.mp hg.2) with hc | hc
    · by_cases hv : v = []
      · subst hv
        exact nilPre _
      · exact absurd hc (h4 v hvt hv)
    · exact absurd (hc.isInfix.trans ((List.mem_tails _ _).mp hvt).isInfix) h3
  | case3 c cs hg ih =>
    intro v hvt hp
    rw [replaceAll_cons_neg (by simpa [isPrefixOfIff] using hg)]
    rcases v with _ | ⟨b, v'⟩
    · exact nilPre _
    · obtain ⟨rfl, hp'⟩ := List.cons_prefix_cons.mp hp
      have hvt' : v' ∈ p.tails := by
        rw [List.mem_tails] at hvt ⊢
        exact (List.suffix_cons b v').trans hvt
      exact List.cons_prefix_cons.mpr ⟨rfl, ih v' hvt' hp'⟩

/-- A word `p` that cannot overlap the pattern in any way survives
`replaceAll` as an infix. -/
theorem infix_survives {old new : Str} (p : Str)
    (h1 : ¬ p <:+: old)
    (h2 : ∀ s ∈ old.tails, s ≠ [] → ¬ s <+: p)
    (h3 : ¬ old <:+: p)
    (h4 : ∀ v ∈ p.tails, v ≠ [] → ¬ v <+: old) :
    ∀ l, p <:+: l → p <:+: replaceAll old new l := by
  intro l
  induction l using replaceAll.induct old new with
  | case1 =>
    intro hp
    rw [replaceAll_nil]
    exact hp
  | case2 c cs hg ih =>
    intro hp
    rw [replaceAll_cons_pos hg.1 (isPrefixOfIff.mp hg.2)]
    have hl : c :: cs = old ++ (c :: cs).drop old.length := by
      conv_lhs => rw [← List.take_append_drop old.length (c :: cs)]
      rw [← List.prefix_iff_eq_take.mp (isPrefixOfIff.mp hg.2)]
    rw [hl] at hp
    rcases infix_append_split hp with hx | hy | ⟨s, u, he, hs, _, hsx, _⟩
    · exact absurd hx h1
    · exact ((ih hy).trans (List.suffix_append new _).isInfix)
    · exact absurd ⟨u, he.symm⟩ (h2 s ((List.mem_tails _ _).mpr hsx) hs)
  | case3 c cs hg ih =>
    intro hp
    rcases List.infix_cons_iff.mp hp with hpre | hinf
    · exact (prefix_survives p h3 h4 (c :: cs) p
        ((List.mem_tails _ _).mpr (List.suffix_refl p)) hpre).isInfix
    · rw [replaceAll_cons_neg (by simpa [isPrefixOfIff] using hg)]
      exact (ih hinf).trans (List.suffix_cons c _).isInfix

/-! Helper lemmas about the Python string primitives. -/

theorem dropWhile_eq_self_of {p : Char → Bool} {l : Str}
    (h : ∀ c ∈ l, p c = false) : l.dropWhile p = l := by
  cases l with
  | nil => rfl
  | cons a as => rw [List.dropWhile_cons, h a (by simp)]; simp

theorem stripChars_eq_self {set : List Char} {l : Str}
    (h : ∀ c ∈ l, c ∉ set) : stripChars set l = l := by
  unfold stripChars
  have h1 : l.dropWhile (· ∈ set) = l :=
    dropWhile_eq_self_of (fun c hc => by simp [h c hc])
  rw [h1]
  have h2 : l.reverse.dropWhile (· ∈ set) = l.reverse :=
    dropWhile_eq_self_of (fun c hc => by simp [h c (List.mem_reverse.mp hc)])
  rw [h2, List.reverse_reverse]

theorem pyStrip_eq_self {l : Str} (h : ∀ c ∈ l, c ∉ pyWhitespace) :
    pyStrip l = l := stripChars_eq_self h

theorem dropWhile_all {p : Char → Bool} {l : Str}
    (h : ∀ c ∈ l, p c = true) : l.dropWhile p = [] := by
  induction l with
  | nil => rfl
  | cons a as ih =>
    rw [List.dropWhile_cons, h a (by simp)]
    simp only [if_true]
    exact ih (fun c hc => h c (by simp [hc]))

theorem pyStrip_eq_nil {l : Str} (h : ∀ c ∈ l, c ∈ pyWhitespace) :
    pyStrip l = [] := by
  unfold pyStrip stripChars
  have h1 : l.dropWhile (· ∈ pyWhitespace) = [] :=
    dropWhile_all (fun c hc => by simp [h c hc])
  rw [h1]
  rfl

theorem splitlines_single {l : Str} (hne : l ≠ [])
    (h : ∀ c ∈ l, c ∉ lineBreakChars) : splitlines l = [l] := by
  induction l with
  | nil => exact absurd rfl hne
  | cons c cs ih =>
    have hc : c ∉ lineBreakChars := h c (by simp)
    have hcr : c ≠ '\r' := fun he => hc (by rw [he]; decide)
    cases cs with
    | nil => simp [splitlines, hc]
    | cons d ds =>
      have hrec : splitlines (d :: ds) = [d :: ds] :=
        ih (by simp) (fun e he => h e (by simp [he]))
      rw [show splitlines (c :: d :: ds)
          = if c ∈ lineBreakChars then [] :: splitlines (d :: ds)
            else match splitlines (d :: ds) with
              | [] => [[c]]
              | h :: t => (c :: h) :: t by
        rw [splitlines.eq_def]
        rcases eq_or_ne c '\r' with h1 | h1
        · exact absurd h1 hcr
        · rcases eq_or_ne d '\n' with h2 | h2 <;> simp [h1]]
      rw [if_neg hc, hrec]

theorem dropWhile_replicate_append {p : Char → Bool} {q : Char} (hp : p q = true) :
    ∀ (k : Nat) (rest : Str),
      (List.replicate k q ++ rest).dropWhile p = rest.dropWhile p := by
  intro k
  induction k with
  | zero => simp
  | succ n ih => intro rest; simp [List.replicate_succ, List.dropWhile_cons, hp, ih]

theorem stripChars_wrap {q : Char} {k : Nat} {core : Str} (hne : core ≠ [])
    (h : ∀ c ∈ core, c ≠ q) :
    stripChars [q] (List.replicate k q ++ core ++ List.replicate k q) = core := by
  unfold stripChars
  rw [List.append_assoc, dropWhile_replicate_append (by simp) k]
  rcases core with _ | ⟨a, as⟩
  · exact absurd rfl hne
  · rw [List.cons_append, List.dropWhile_cons]
    have ha : a ∉ [q] := by simp [h a (by simp)]
    rw [if_neg (by simpa using ha)]
    rw [← List.cons_append, List.reverse_append, List.reverse_replicate,
      dropWhile_replicate_append (by simp) k]
    rcases hrev : (a :: as).reverse with _ | ⟨b, bs⟩
    · simp at hrev
    · have hb : b ∈ a :: as := by
        have : b ∈ (a :: as).reverse := by rw [hrev]; simp
        exact List.mem_reverse.mp this
      rw [List.dropWhile_cons, if_neg (by simpa using h b hb), ← hrev,
        List.reverse_reverse]

/-- The score of `exact_label_evaluator`, in terms of the first line of the
stripped response. -/
theorem evaluator_score_eq (data : Example) (response first : Str) (rest : List Str)
    (h : splitlines (pyStrip response) = first :: rest) :
    (exact_label_evaluator data response).map (fun r => r.score)
      = some (if pyLower (stripChars ['\''] (stripChars ['"'] (pyStrip first)))
                = pyLower (pyStrip data.answer) then (1 : ℚ) else 0) := by
  unfold exact_label_evaluator
  rw [h]
  rfl

/-! Claim theorems. -/

/-- Claim C10: `exact_label_evaluator` is not total: for every example, a
response that is empty or consists only of whitespace makes
`response.strip().splitlines()[0]` index an empty list, raising `IndexError`
(modelled as `none`) instead of returning an `EvaluationResult`. -/
theorem C10_evaluator_not_total (data : Example) (response : Str)
    (h : ∀ c ∈ response, c ∈ pyWhitespace) :
    exact_label_evaluator data response = none := by
  unfold exact_label_evaluator
  rw [pyStrip_eq_nil h]
  rfl

/-- Witness for C10 at the empty response and a whitespace-only response. -/
theorem C10_evaluator_not_total_witness :
    exact_label_evaluator ⟨"text: hi".toList, "spam".toList⟩ [] = none
    ∧ exact_label_evaluator ⟨"text: hi".toList, "spam".toList⟩ ("  \t\n ".toList) = none :=
  ⟨C10_evaluator_not_total _ _ (by decide), C10_evaluator_not_total _ _ (by decide)⟩

/-- Claim C2 counterexample: the code strips ALL surrounding quote
characters, not exactly one layer: the response `""spam""` IS reduced to the
bare label `spam` by the normalization, and scores 1.0 against expected
label `spam`, contradicting the claim. -/
theorem C2_counterexample :
    pyLower (stripChars ['\''] (stripChars ['"'] (pyStrip ("\"\"spam\"\"".toList))))
        = "spam".toList
    ∧ (exact_label_evaluator ⟨[], "spam".toList⟩ ("\"\"spam\"\"".toList)).map
        (fun r => r.score) = some 1 := by
  constructor
  · decide
  · decide

/-- Claim C2 (amended): the normalization takes the first line of the
whitespace-trimmed response, trims it, strips ALL surrounding double-quote
characters, then all surrounding single-quote characters, then lower-cases;
in particular a first line wrapped in any number `k` of double-quote layers
around a quote-free, whitespace-free label IS reduced to the lower-cased
bare label. -/
theorem C2_strip_all_quote_layers (k : Nat) (core : Str) (data : Example)
    (hne : core ≠ [])
    (hc : ∀ c ∈ core, c ∉ pyWhitespace ∧ c ∉ lineBreakChars ∧ c ≠ '"' ∧ c ≠ '\'') :
    (exact_label_evaluator data
        (List.replicate k '"' ++ core ++ List.replicate k '"')).map (fun r => r.score)
      = some (if pyLower core = pyLower (pyStrip data.answer) then (1 : ℚ) else 0) := by
  have hall : ∀ c ∈ List.replicate k '"' ++ core ++ List.replicate k '"',
      c ∉ pyWhitespace ∧ c ∉ lineBreakChars := by
    intro c hcm
    rcases List.mem_append.mp hcm with h1 | h2
    · rcases List.mem_append.mp h1 with h3 | h4
      · rw [List.eq_of_mem_replicate h3]; exact ⟨by decide, by decide⟩
      · exact ⟨(hc c h4).1, (hc c h4).2.1⟩
    · rw [List.eq_of_mem_replicate h2]; exact ⟨by decide, by decide⟩
  have hne' : List.replicate k '"' ++ core ++ List.replicate k '"' ≠ [] := by
    simp [hne]
  have hstrip : pyStrip (List.replicate k '"' ++ core ++ List.replicate k '"')
      = List.replicate k '"' ++ core ++ List.replicate k '"' :=
    pyStrip_eq_self (fun c hcm => (hall c hcm).1)
  have hsplit : splitlines (pyStrip (List.replicate k '"' ++ core ++ List.replicate k '"'))
      = (List.replicate k '"' ++ core ++ List.replicate k '"') :: [] := by
    rw [hstrip]
    exact splitlines_single hne' (fun c hcm => (hall c hcm).2)
  rw [evaluator_score_eq data _ _ [] hsplit, hstrip,
    stripChars_wrap hne (fun c hcm => (hc c hcm).2.2.1),
    stripChars_eq_self (fun c hcm => by simp [(hc c hcm).2.2.2])]

/-- Witness for C2 (amended): two double-quote layers around `spam` against
expected label `Spam` score exactly 1.0. -/
theorem C2_strip_all_quote_layers_witness :
    (exact_label_evaluator ⟨[], "Spam".toList⟩
        (List.replicate 2 '"' ++ "spam".toList ++ List.replicate 2 '"')).map
      (fun r => r.score) = some 1 := by
  rw [C2_strip_all_quote_layers 2 ("spam".toList) ⟨[], "Spam".toList⟩
    (by decide) (by decide)]
  decide

/-- Claim C3: whenever the evaluator returns, the score is exactly 1.0 when
the normalized predicted text (first line of the stripped response, stripped,
unquoted, lower-cased) equals the normalized expected label (stripped,
lower-cased), and exactly 0.0 otherwise. -/
theorem C3_score_exact (data : Example) (response first : Str) (rest : List Str)
    (h : splitlines (pyStrip response) = first :: rest) :
    (exact_label_evaluator data response).map (fun r => r.score)
      = some (if pyLower (stripChars ['\''] (stripChars ['"'] (pyStrip first)))
                = pyLower (pyStrip data.answer) then (1 : ℚ) else 0) :=
  evaluator_score_eq data response first rest h

/-- Witness for C3 at the concrete cases of the claim: against expected
label `Spam`, the responses `"Spam"`, `'spam'` and `spam` followed by an
extra line score 1.0, and `SPAM!` scores 0.0. -/
theorem C3_score_exact_witness :
    (exact_label_evaluator ⟨[], "Spam".toList⟩ ("\"Spam\"".toList)).map
        (fun r => r.score) = some 1
    ∧ (exact_label_evaluator ⟨[], "Spam".toList⟩ ("'spam'".toList)).map
        (fun r => r.score) = some 1
    ∧ (exact_label_evaluator ⟨[], "Spam".toList⟩ ("spam\nextra text".toList)).map
        (fun r => r.score) = some 1
    ∧ (exact_label_evaluator ⟨[], "Spam".toList⟩ ("SPAM!".toList)).map
        (fun r => r.score) = some 0 := by
  refine ⟨?_, ?_, ?_, ?_⟩
  · rw [C3_score_exact ⟨[], "Spam".toList⟩ ("\"Spam\"".toList)
      ("\"Spam\"".toList) [] (by decide)]
    decide
  · rw [C3_score_exact ⟨[], "Spam".toList⟩ ("'spam'".toList)
      ("'spam'".toList) [] (by decide)]
    decide
  · rw [C3_score_exact ⟨[], "Spam".toList⟩ ("spam\nextra text".toList)
      ("spam".toList) ["extra text".toList] (by decide)]
    decide
  · rw [C3_score_exact ⟨[], "Spam".toList⟩ ("SPAM!".toList)
      ("SPAM!".toList) [] (by decide)]
    decide

set_option maxRecDepth 4000 in
/-- Claim C1: the raw-string regex doubles every backslash, so the pattern
demands literal backslash characters and can never match a genuine
`const prompt = [ ... ].join("\n");` region: on a well-formed service text
the function raises instead of returning the joined backtick parts.
Moreover, on every text whatsoever the function raises: even when the buggy
pattern does match, group 1 captures the fixed backslash-laden characters
`"\\n"\`, which contain no backtick, so no template literal parts are found. -/
theorem C1_extract_prompt_never_succeeds :
    extract_prompt_from_service serviceTextC1
        = Except.error ("Could not find prompt block".toList)
    ∧ ∀ text : Str, ∃ e, extract_prompt_from_service text = Except.error e := by
  constructor
  · decide
  · intro text
    unfold extract_prompt_from_service
    by_cases h : reSearch promptToks text
    · refine ⟨"No template literal parts found in prompt block".toList, ?_⟩
      rw [if_pos h]
      rfl
    · refine ⟨"Could not find prompt block".toList, ?_⟩
      rw [if_neg h]

/-- Claim C4: with a blank feature-column request, `pick_feature_columns`
returns the first row's headers minus the label column, in original order. -/
theorem C4_default_feature_columns (rows : List Row) (row0 : Row) (rs : List Row)
    (label_column : Str) (feature_columns : Str)
    (hrows : rows = row0 :: rs)
    (hlab : label_column ∈ row0.map Prod.fst)
    (hreq : pyStrip feature_columns = []) :
    pick_feature_columns rows label_column feature_columns
      = Except.ok ((row0.map Prod.fst).filter (· ≠ label_column)) := by
  subst hrows
  simp [pick_feature_columns, hlab, hreq]

/-- Witness for C4: headers `x, lab, y`, label `lab`, blank request. -/
theorem C4_default_feature_columns_witness :
    pick_feature_columns
        [[("x".toList, "1".toList), ("lab".toList, "a".toList), ("y".toList, "2".toList)]]
        ("lab".toList) (" ".toList)
      = Except.ok ["x".toList, "y".toList] := by
  rw [C4_default_feature_columns _
    [("x".toList, "1".toList), ("lab".toList, "a".toList), ("y".toList, "2".toList)] []
    ("lab".toList) (" ".toList) rfl (by decide) (by decide)]
  decide

/-- Claim C6: a label column absent from the first row's headers makes
`pick_feature_columns` fail with a message that names the missing column and
lists the full header set. -/
theorem C6_missing_label_column (rows : List Row) (row0 : Row) (rs : List Row)
    (label_column : Str) (feature_columns : Str)
    (hrows : rows = row0 :: rs)
    (hlab : label_column ∉ row0.map Prod.fst) :
    pick_feature_columns rows label_column feature_columns
        = Except.error (labelErrMsg label_column (row0.map Prod.fst))
      ∧ label_column <:+: labelErrMsg label_column (row0.map Prod.fst)
      ∧ reprStrList (row0.map Prod.fst) <:+: labelErrMsg label_column (row0.map Prod.fst) := by
  subst hrows
  refine ⟨by simp [pick_feature_columns, hlab], ?_, ?_⟩
  · exact ⟨"label column '".toList,
      "' not in CSV headers: ".toList ++ reprStrList (row0.map Prod.fst), by
        simp [labelErrMsg]⟩
  · refine (?_ : reprStrList (row0.map Prod.fst) <:+ _).isInfix
    exact ⟨"label column '".toList ++ label_column ++ "' not in CSV headers: ".toList, by
      simp [labelErrMsg]⟩

/-- Witness for C6 at the claim's example: `label_column="missing_col"`
against headers `["x","y"]`. -/
theorem C6_missing_label_column_witness :
    pick_feature_columns [[("x".toList, "1".toList), ("y".toList, "2".toList)]]
        ("missing_col".toList) []
        = Except.error (labelErrMsg ("missing_col".toList) ["x".toList, "y".toList])
      ∧ ("missing_col".toList) <:+: labelErrMsg ("missing_col".toList) ["x".toList, "y".toList]
      ∧ reprStrList ["x".toList, "y".toList]
          <:+: labelErrMsg ("missing_col".toList) ["x".toList, "y".toList] :=
  C6_missing_label_column _ [("x".toList, "1".toList), ("y".toList, "2".toList)] []
    ("missing_col".toList) [] rfl (by decide)

/-- A `filterMap` whose function is a guarded `some` is a `filter` followed
by a `map`. -/
theorem filterMap_guard_eq {α β : Type} (p : α → Bool) (f : α → β) (g : α → Option β)
    (hg : ∀ a, g a = if p a then some (f a) else none) :
    ∀ l : List α, l.filterMap g = (l.filter p).map f := by
  intro l
  induction l with
  | nil => simp
  | cons a as ih =>
    by_cases h : p a <;>
      simp [List.filterMap_cons, List.filter_cons, hg, h, ih]

/-- The dataset built by `to_dataset`, as a `filter` plus `map` over the
input rows. -/
theorem to_dataset_eq (rows : List Row) (label_column : Str) (feature_cols : List Str) :
    to_dataset rows label_column feature_cols
      = (if (rows.filter (keepRow label_column)) = [] then
          Except.error ("No usable rows with non-empty labels".toList)
        else Except.ok ((rows.filter (keepRow label_column)).map (fun row =>
          { input := joinNL (feature_cols.map (fun k =>
              k ++ ": ".toList ++ pyStrip (dictGetD row k [])))
            answer := pyStrip (dictGetD row label_column []) }))) := by
  unfold to_dataset
  rw [filterMap_guard_eq (keepRow label_column)
    (fun row =>
      { input := joinNL (feature_cols.map (fun k =>
          k ++ ": ".toList ++ pyStrip (dictGetD row k [])))
        answer := pyStrip (dictGetD row label_column []) })
    _
    (fun row => by
      unfold keepRow
      by_cases h : pyStrip (dictGetD row label_column []) = [] <;> simp [h])
    rows]
  by_cases h : rows.filter (keepRow label_column) = [] <;> simp [h]

/-- Claim C5: `to_dataset` errors exactly when no row has a non-empty
stripped label, and otherwise returns one record per such row, in input
order, carrying the stripped label as its answer. -/
theorem C5_to_dataset_kept_rows (rows : List Row) (label_column : Str)
    (feature_cols : List Str) :
    (to_dataset rows label_column feature_cols
        = Except.error ("No usable rows with non-empty labels".toList)
      ↔ rows.filter (keepRow label_column) = [])
    ∧ ∀ ds, to_dataset rows label_column feature_cols = Except.ok ds →
        ds.length = (rows.filter (keepRow label_column)).length
        ∧ ds.map (fun e => e.answer)
            = (rows.filter (keepRow label_column)).map
                (fun row => pyStrip (dictGetD row label_column [])) := by
  rw [to_dataset_eq]
  constructor
  · by_cases h : rows.filter (keepRow label_column) = [] <;> simp [h]
  · intro ds hds
    by_cases h : rows.filter (keepRow label_column) = []
    · rw [if_pos h] at hds
      exact absurd hds (by simp)
    · rw [if_neg h] at hds
      obtain rfl := Except.ok.inj hds
      constructor
      · simp
      · simp

/-- Witness for C5: two usable rows and one blank-label row yield a
two-record dataset with stripped labels in input order. -/
theorem C5_to_dataset_kept_rows_witness :
    ([⟨"a: 1".toList, "x".toList⟩, ⟨"a: 3".toList, "y".toList⟩] : List Example).length
        = ([[("a".toList, "1".toList), ("lab".toList, " x ".toList)],
            [("a".toList, "2".toList), ("lab".toList, "  ".toList)],
            [("a".toList, "3".toList), ("lab".toList, "y".toList)]].filter
              (keepRow ("lab".toList))).length
    ∧ ([⟨"a: 1".toList, "x".toList⟩, ⟨"a: 3".toList, "y".toList⟩] : List Example).map
          (fun e => e.answer)
        = ([[("a".toList, "1".toList), ("lab".toList, " x ".toList)],
            [("a".toList, "2".toList), ("lab".toList, "  ".toList)],
            [("a".toList, "3".toList), ("lab".toList, "y".toList)]].filter
              (keepRow ("lab".toList))).map
            (fun row => pyStrip (dictGetD row ("lab".toList) [])) :=
  (C5_to_dataset_kept_rows
      [[("a".toList, "1".toList), ("lab".toList, " x ".toList)],
       [("a".toList, "2".toList), ("lab".toList, "  ".toList)],
       [("a".toList, "3".toList), ("lab".toList, "y".toList)]]
      ("lab".toList) ["a".toList]).2
    [⟨"a: 1".toList, "x".toList⟩, ⟨"a: 3".toList, "y".toList⟩] (by decide)

/-- Claim C9: every record kept by `to_dataset` carries as `input` the
feature columns in caller order, each rendered as `<column>: <stripped
value>` and joined by newlines, a column absent from the row contributing an
empty value. -/
theorem C9_input_lines (rows : List Row) (label_column : Str)
    (feature_cols : List Str) (ds : List Example)
    (h : to_dataset rows label_column feature_cols = Except.ok ds) :
    ds.map (fun e => e.input)
      = (rows.filter (keepRow label_column)).map (fun row =>
          joinNL (feature_cols.map (fun k =>
            k ++ ": ".toList ++ pyStrip (dictGetD row k [])))) := by
  rw [to_dataset_eq] at h
  by_cases hk : rows.filter (keepRow label_column) = []
  · rw [if_pos hk] at h
    exact absurd h (by simp)
  · rw [if_neg hk] at h
    obtain rfl := Except.ok.inj h
    simp

/-- Witness for C9: the feature column `b` is absent from the row, so its
line is `b: ` with an empty value. -/
theorem C9_input_lines_witness :
    ([⟨"a: 1\nb: ".toList, "x".toList⟩] : List Example).map (fun e => e.input)
      = ([[("a".toList, " 1 ".toList), ("lab".toList, "x".toList)]].filter
            (keepRow ("lab".toList))).map (fun row =>
          joinNL (["a".toList, "b".toList].map (fun k =>
            k ++ ": ".toList ++ pyStrip (dictGetD row k [])))) :=
  C9_input_lines [[("a".toList, " 1 ".toList), ("lab".toList, "x".toList)]]
    ("lab".toList) ["a".toList, "b".toList]
    [⟨"a: 1\nb: ".toList, "x".toList⟩] (by decide)

/-- A word absent from both parts of a concatenation and unable to cross the
boundary (no nonempty proper suffix of it is a prefix of the right part) is
absent from the concatenation. -/
theorem not_in_append {p B suf : Str} (h1 : ¬ p <:+: B) (h2 : ¬ p <:+: suf)
    (h3 : ∀ u ∈ p.tails, u ≠ [] → u.length < p.length → ¬ u <+: suf) :
    ¬ p <:+: B ++ suf := by
  intro hc
  rcases infix_append_split hc with hx | hy | ⟨s, u, he, hs, hu, _, huy⟩
  · exact h1 hx
  · exact h2 hy
  · refine h3 u ((List.mem_tails _ _).mpr ⟨s, he.symm⟩) hu ?_ huy
    have : p.length = s.length + u.length := by rw [he]; simp
    have hsl : 0 < s.length := List.length_pos.mpr hs
    omega

/-- Claim C8: the placeholder rewriting of `extract_prompt_from_service` is
idempotent: substituting `${businessType}` by `{business_type}` and
`${aggressivenessLevel}` by `{aggressiveness_level}` twice gives the same
text as doing it once. -/
theorem C8_substPlaceholders_idempotent (text : Str) :
    substPlaceholders (substPlaceholders text) = substPlaceholders text := by
  have hb : ¬ dollarBusiness <:+: substPlaceholders text := by
    unfold substPlaceholders
    exact not_in_replaceAll_other dollarBusiness (by decide) (by decide) (by decide)
      (replaceAll dollarBusiness braceBusiness text)
      (not_in_replaceAll_self (by decide) (by decide) (by decide) (by decide) text)
  have ha : ¬ dollarAggressiveness <:+: substPlaceholders text := by
    unfold substPlaceholders
    exact not_in_replaceAll_self (by decide) (by decide) (by decide) (by decide)
      (replaceAll dollarBusiness braceBusiness text)
  calc substPlaceholders (substPlaceholders text)
      = replaceAll dollarAggressiveness braceAggressiveness
          (replaceAll dollarBusiness braceBusiness (substPlaceholders text)) := rfl
    _ = replaceAll dollarAggressiveness braceAggressiveness (substPlaceholders text) := by
        rw [replaceAll_eq_self _ hb]
    _ = substPlaceholders text := replaceAll_eq_self _ ha

/-- Claim C7 counterexample: a template that contains both optimizer
placeholders but also a literal `${businessType}` keeps that token in the
built seed text, because `build_seed_prompt` only substitutes the
brace-style placeholders. -/
theorem C7_counterexample :
    braceBusiness <:+: badTemplateC7
    ∧ braceAggressiveness <:+: badTemplateC7
    ∧ dollarBusiness <:+:
        build_seed_text badTemplateC7 ("bakery".toList) ("high".toList) := by
  refine ⟨by decide, by decide, ?_⟩
  have he : build_seed_text badTemplateC7 ("bakery".toList) ("high".toList)
      = ("${businessType} bakery high\n\nReturn only the label string. No explanation.").toList := by
    simp +decide [build_seed_text, replaceAll, badTemplateC7, braceBusiness,
      braceAggressiveness, seedSuffix]
  rw [he]
  decide

/-- Claim C7 (amended): for every template containing both brace-style
placeholders and neither dollar-style placeholder (as is the case for every
output of `extract_prompt_from_service`), the seed text built with
`business_type="bakery"` and `aggressiveness_level="high"` contains none of
the four placeholder tokens, contains `bakery` and `high`, and ends with the
fixed suffix. -/
theorem C7_seed_round_trip (template : Str)
    (hb : braceBusiness <:+: template)
    (ha : braceAggressiveness <:+: template)
    (hdb : ¬ dollarBusiness <:+: template)
    (hda : ¬ dollarAggressiveness <:+: template) :
    ¬ braceBusiness <:+: build_seed_text template ("bakery".toList) ("high".toList)
    ∧ ¬ braceAggressiveness <:+: build_seed_text template ("bakery".toList) ("high".toList)
    ∧ ¬ dollarBusiness <:+: build_seed_text template ("bakery".toList) ("high".toList)
    ∧ ¬ dollarAggressiveness <:+: build_seed_text template ("bakery".toList) ("high".toList)
    ∧ ("bakery".toList) <:+: build_seed_text template ("bakery".toList) ("high".toList)
    ∧ ("high".toList) <:+: build_seed_text template ("bakery".toList) ("high".toList)
    ∧ seedSuffix <:+ build_seed_text template ("bakery".toList) ("high".toList) := by
  have hout : build_seed_text template ("bakery".toList) ("high".toList)
      = replaceAll braceAggressiveness ("high".toList)
          (replaceAll braceBusiness ("bakery".toList) template) ++ seedSuffix := rfl
  rw [hout]
  have hB1 : ¬ braceBusiness <:+:
      replaceAll braceBusiness ("bakery".toList) template :=
    not_in_replaceAll_self (by decide) (by decide) (by decide) (by decide) template
  have hB2 : ¬ braceBusiness <:+:
      replaceAll braceAggressiveness ("high".toList)
        (replaceAll braceBusiness ("bakery".toList) template) :=
    not_in_replaceAll_other braceBusiness (by decide) (by decide) (by decide) _ hB1
  have hA2 : ¬ braceAggressiveness <:+:
      replaceAll braceAggressiveness ("high".toList)
        (replaceAll braceBusiness ("bakery".toList) template) :=
    not_in_replaceAll_self (by decide) (by decide) (by decide) (by decide) _
  have hdb1 : ¬ dollarBusiness <:+:
      replaceAll braceBusiness ("bakery".toList) template :=
    not_in_replaceAll_other dollarBusiness (by decide) (by decide) (by decide) _ hdb
  have hdb2 : ¬ dollarBusiness <:+:
      replaceAll braceAggressiveness ("high".toList)
        (replaceAll braceBusiness ("bakery".toList) template) :=
    not_in_replaceAll_other dollarBusiness (by decide) (by decide) (by decide) _ hdb1
  have hda1 : ¬ dollarAggressiveness <:+:
      replaceAll braceBusiness ("bakery".toList) template :=
    not_in_replaceAll_other dollarAggressiveness (by decide) (by decide) (by decide) _ hda
  have hda2 : ¬ dollarAggressiveness <:+:
      replaceAll braceAggressiveness ("high".toList)
        (replaceAll braceBusiness ("bakery".toList) template) :=
    not_in_replaceAll_other dollarAggressiveness (by decide) (by decide) (by decide) _ hda1
  have hbak1 : ("bakery".toList) <:+:
      replaceAll braceBusiness ("bakery".toList) template :=
    new_in_replaceAll (by decide) template hb
  have hbak2 : ("bakery".toList) <:+:
      replaceAll braceAggressiveness ("high".toList)
        (replaceAll braceBusiness ("bakery".toList) template) :=
    infix_survives ("bakery".toList) (by decide) (by decide) (by decide) (by decide) _ hbak1
  have hal1 : braceAggressiveness <:+:
      replaceAll braceBusiness ("bakery".toList) template :=
    infix_survives braceAggressiveness (by decide) (by decide) (by decide) (by decide)
      template ha
  have hhigh : ("high".toList) <:+:
      replaceAll braceAggressiveness ("high".toList)
        (replaceAll braceBusiness ("bakery".toList) template) :=
    new_in_replaceAll (by decide) _ hal1
  refine ⟨not_in_append hB2 (by decide) (by decide),
    not_in_append hA2 (by decide) (by decide),
    not_in_append hdb2 (by decide) (by decide),
    not_in_append hda2 (by decide) (by decide),
    hbak2.trans (List.prefix_append _ seedSuffix).isInfix,
    hhigh.trans (List.prefix_append _ seedSuffix).isInfix,
    List.suffix_append _ seedSuffix⟩

/-- Witness for C7 (amended) at a concrete template containing both
brace-style placeholders. -/
theorem C7_seed_round_trip_witness :
    ¬ braceBusiness <:+: build_seed_text
        ("You advise a {business_type}. Tone: {aggressiveness_level}.".toList)
        ("bakery".toList) ("high".toList)
    ∧ ¬ braceAggressiveness <:+: build_seed_text
        ("You advise a {business_type}. Tone: {aggressiveness_level}.".toList)
        ("bakery".toList) ("high".toList)
    ∧ ¬ dollarBusiness <:+: build_seed_text
        ("You advise a {business_type}. Tone: {aggressiveness_level}.".toList)
        ("bakery".toList) ("high".toList)
    ∧ ¬ dollarAggressiveness <:+: build_seed_text
        ("You advise a {business_type}. Tone: {aggressiveness_level}.".toList)
        ("bakery".toList) ("high".toList)
    ∧ ("bakery".toList) <:+: build_seed_text
        ("You advise a {business_type}. Tone: {aggressiveness_level}.".toList)
        ("bakery".toList) ("high".toList)
    ∧ ("high".toList) <:+: build_seed_text
        ("You advise a {business_type}. Tone: {aggressiveness_level}.".toList)
        ("bakery".toList) ("high".toList)
    ∧ seedSuffix <:+ build_seed_text
        ("You advise a {business_type}. Tone: {aggressiveness_level}.".toList)
        ("bakery".toList) ("high".toList) :=
  C7_seed_round_trip ("You advise a {business_type}. Tone: {aggressiveness_level}.".toList)
    (by decide) (by decide) (by decide) (by decide)

end Gepa
